import Mathlib

/-!
# Shallow embedding of the `gear-dapps/identity` claim ledger

This file embeds the core of `src/src/lib.rs` (the `IdentityStorage` state
machine) together with the shared types of `src/io/src/lib.rs`, and proves
properties of the embedded operations.

Modelling conventions:

* `PublicKey` (`[u8; 32]`), `Signature` (`[u8; 64]`) and the 32-byte hashes are
  modelled as `Nat`: the program only ever compares them for equality and
  against the reserved all-zero arrays, which are modelled by `0`.  No
  arithmetic is ever performed on them.
* `PieceId` and `issuance_date` (`u128`) are modelled as `Nat`.  The piece
  counter starts at `0` or `1` and increments by one per successful issuance,
  so its value always equals the initial value plus the number of issued
  claims; wrap-around of the 128-bit counter is not modelled.
* `BTreeMap` is modelled as an association list with unique keys, with
  `insert` replacing the value of an existing key in place and appending a
  fresh key at the end.  The `BTreeMap` key ordering is not modelled: no
  property proved here observes the order of entries.
* A Rust `panic!` / `expect` aborts the whole message and (in the hosting
  runtime) reverts its state changes; every operation is therefore embedded
  as a function returning the post-state paired with
  `Except IdentityError IdentityEvent`, where an error leaves the passed
  state untouched.  In the source all precondition panics do occur before any
  mutation.  The panic messages map onto the spec's failure taxonomy:
  "Can not use a zero public key" ↦ `InvalidKey`; "The user has no claims",
  "The user has not such claim with the provided piece_id",
  "No such public key", "No such piece_id" ↦ `NotFound`;
  "You can not change this claim", "You can not verify this claim"
  ↦ `Unauthorized`.
-/

set_option autoImplicit false

namespace Identity

variable {α : Type}

/-- `BTreeMap::get`: the value stored at key `k`, if any. -/
def alookup (k : Nat) : List (Nat × α) → Option α
  | [] => none
  | (k', v) :: rest => if k = k' then some v else alookup k rest

/-- `BTreeMap::insert`: replace the value at an existing key `k`, or add the
entry `(k, v)` for a fresh key. -/
def ainsert (k : Nat) (v : α) : List (Nat × α) → List (Nat × α)
  | [] => [(k, v)]
  | (k', v') :: rest =>
    if k = k' then (k, v) :: rest else (k', v') :: ainsert k v rest

/-- `BTreeMap::entry(k).and_modify(f)`: apply `f` to the value at key `k` if
the key is present; do nothing otherwise. -/
def amodify (k : Nat) (f : α → α) : List (Nat × α) → List (Nat × α)
  | [] => []
  | (k', v) :: rest =>
    if k = k' then (k', f v) :: rest else (k', v) :: amodify k f rest

/-- `BTreeMap::entry(k).or_default()` followed by an update `f` of the entry:
ensure key `k` is present (inserting `dflt` if absent) and apply `f` to its
value. -/
def aupdate (k : Nat) (dflt : α) (f : α → α) : List (Nat × α) → List (Nat × α)
  | [] => [(k, f dflt)]
  | (k', v) :: rest =>
    if k = k' then (k', f v) :: rest else (k', v) :: aupdate k dflt f rest

/-- `ClaimData` (io: `pub struct ClaimData`): the internal data stored inside a
claim.  `hashed_info` is a `BTreeSet<[u8; 32]>`, modelled as a list of hashes
queried only through membership. -/
structure ClaimData where
  hashed_info : List Nat
  issuance_date : Nat
  valid : Bool
  deriving DecidableEq, Repr

/-- `Claim` (io: `pub struct Claim`): claim data plus the involved public keys
and signatures.  `verifiers` is a `BTreeMap<PublicKey, Signature>`. -/
structure Claim where
  issuer : Nat
  issuer_signature : Nat
  subject : Nat
  verifiers : List (Nat × Nat)
  data : ClaimData
  deriving DecidableEq, Repr

/-- `IdentityStorage` (lib: `pub struct IdentityStorage`): the whole ledger
state.  `user_claims` is a `BTreeMap<PublicKey, BTreeMap<PieceId, Claim>>`. -/
structure IdentityStorage where
  owner_id : Nat
  user_claims : List (Nat × List (Nat × Claim))
  piece_counter : Nat
  deriving DecidableEq, Repr

/-- `#[derive(Default)]` for `IdentityStorage`: zero owner, empty claim map,
piece counter `0`. -/
def defaultStorage : IdentityStorage :=
  { owner_id := 0, user_claims := [], piece_counter := 0 }

/-- The spec's failure taxonomy for the panics of the source (§7). -/
inductive IdentityError where
  | InvalidKey
  | NotFound
  | Unauthorized
  deriving DecidableEq, Repr

/-- `IdentityEvent` (io: `pub enum IdentityEvent`): the reply of each
mutating operation. -/
inductive IdentityEvent where
  | ClaimIssued (issuer subject piece_id : Nat)
  | ClaimValidationChanged (validator subject piece_id : Nat) (status : Bool)
  | VerifiedClaim (verifier subject piece_id : Nat)
  | CheckedClaim (subject piece_id : Nat) (status : Bool)
  deriving DecidableEq, Repr

/-- `IdentityAction` (io: `pub enum IdentityAction`): the four mutating
operations dispatched by `main`. -/
inductive IdentityAction where
  | IssueClaim (issuer issuer_signature subject : Nat) (data : ClaimData)
  | ClaimValidationStatus (validator subject piece_id : Nat) (status : Bool)
  | VerifyClaim (verifier verifier_signature subject piece_id : Nat)
  | CheckClaim (subject piece_id hash : Nat)
  deriving DecidableEq, Repr

/-- `IdentityStorage::issue_claim`.  A failure returns the state unchanged
(the source panics before mutating). -/
def issue_claim (s : IdentityStorage) (issuer issuer_signature subject : Nat)
    (data : ClaimData) : IdentityStorage × Except IdentityError IdentityEvent :=
  if subject = 0 ∨ issuer_signature = 0 ∨ issuer = 0 then
    (s, .error .InvalidKey)
  else
    let claim : Claim :=
      { issuer := issuer, issuer_signature := issuer_signature,
        subject := subject, verifiers := [], data := data }
    let s' : IdentityStorage :=
      { s with
        user_claims :=
          aupdate subject [] (ainsert s.piece_counter claim) s.user_claims,
        piece_counter := s.piece_counter + 1 }
    -- the event carries `self.piece_counter - 1`, i.e. the pre-increment value
    (s', .ok (.ClaimIssued issuer subject (s'.piece_counter - 1)))

/-- `IdentityStorage::validation_status` (the `ClaimValidationStatus`
operation). -/
def validation_status (s : IdentityStorage)
    (validator subject piece_id : Nat) (status : Bool) :
    IdentityStorage × Except IdentityError IdentityEvent :=
  if validator = 0 ∨ subject = 0 then
    (s, .error .InvalidKey)
  else
    match alookup subject s.user_claims with
    | none => (s, .error .NotFound)
    | some claims =>
      match alookup piece_id claims with
      | none => (s, .error .NotFound)
      | some data_piece =>
        if data_piece.subject ≠ validator ∧ data_piece.issuer ≠ validator then
          (s, .error .Unauthorized)
        else
          let s' : IdentityStorage :=
            { s with
              user_claims :=
                aupdate subject []
                  (amodify piece_id
                    (fun claim => { claim with data := { claim.data with valid := status } }))
                  s.user_claims }
          (s', .ok (.ClaimValidationChanged validator subject piece_id status))

/-- `IdentityStorage::verify_claim`. -/
def verify_claim (s : IdentityStorage)
    (verifier verifier_signature subject piece_id : Nat) :
    IdentityStorage × Except IdentityError IdentityEvent :=
  if verifier = 0 ∨ subject = 0 ∨ verifier_signature = 0 then
    (s, .error .InvalidKey)
  else
    match alookup subject s.user_claims with
    | none => (s, .error .NotFound)
    | some claims =>
      match alookup piece_id claims with
      | none => (s, .error .NotFound)
      | some piece =>
        if piece.issuer = verifier ∨ piece.subject = verifier then
          (s, .error .Unauthorized)
        else
          let s' : IdentityStorage :=
            { s with
              user_claims :=
                aupdate subject []
                  (amodify piece_id
                    (fun claim =>
                      { claim with verifiers := ainsert verifier verifier_signature claim.verifiers }))
                  s.user_claims }
          (s', .ok (.VerifiedClaim verifier subject piece_id))

/-- `IdentityStorage::check_claim` (the `CheckClaim` operation): a pure read
replied as an event; it never mutates the state. -/
def check_claim (s : IdentityStorage) (subject piece_id hash : Nat) :
    IdentityStorage × Except IdentityError IdentityEvent :=
  match alookup subject s.user_claims with
  | none => (s, .error .NotFound)
  | some claims =>
    match alookup piece_id claims with
    | none => (s, .error .NotFound)
    | some piece =>
      (s, .ok (.CheckedClaim subject piece_id (decide (hash ∈ piece.data.hashed_info))))

/-- The dispatch of `main` over a decoded `IdentityAction`. -/
def handle (s : IdentityStorage) :
    IdentityAction → IdentityStorage × Except IdentityError IdentityEvent
  | .IssueClaim issuer issuer_signature subject data =>
    issue_claim s issuer issuer_signature subject data
  | .ClaimValidationStatus validator subject piece_id status =>
    validation_status s validator subject piece_id status
  | .VerifyClaim verifier verifier_signature subject piece_id =>
    verify_claim s verifier verifier_signature subject piece_id
  | .CheckClaim subject piece_id hash =>
    check_claim s subject piece_id hash

/-- `meta_state`, `IdentityStateQuery::UserClaims(pkey)`: all the claims of a
subject, or an empty map for an unknown subject.  The state is returned to
make the (absent) state effect of the query explicit. -/
def metaUserClaims (s : IdentityStorage) (pkey : Nat) :
    IdentityStorage × List (Nat × Claim) :=
  (s, (alookup pkey s.user_claims).getD [])

/-- `meta_state`, `IdentityStateQuery::Claim(pkey, piece_id)`: the source
reads through `user_claims.entry(pkey).or_default()`, which inserts an empty
claim map for an unknown `pkey` before looking up `piece_id`. -/
def metaClaim (s : IdentityStorage) (pkey piece_id : Nat) :
    IdentityStorage × Option Claim :=
  ({ s with user_claims := aupdate pkey [] (fun m => m) s.user_claims },
   alookup piece_id ((alookup pkey s.user_claims).getD []))

/-- `meta_state`, `IdentityStateQuery::ValidationStatus(pkey, piece_id)`:
the `valid` flag of the claim; the `expect` panics are `NotFound`. -/
def metaValidationStatus (s : IdentityStorage) (pkey piece_id : Nat) :
    IdentityStorage × Except IdentityError Bool :=
  (s,
   match alookup pkey s.user_claims with
   | none => .error .NotFound
   | some claims =>
     match alookup piece_id claims with
     | none => .error .NotFound
     | some claim => .ok claim.data.valid)

/-- `meta_state`, `IdentityStateQuery::Date(pkey, piece_id)`: the stored
issuance date. -/
def metaDate (s : IdentityStorage) (pkey piece_id : Nat) :
    IdentityStorage × Except IdentityError Nat :=
  (s,
   match alookup pkey s.user_claims with
   | none => .error .NotFound
   | some claims =>
     match alookup piece_id claims with
     | none => .error .NotFound
     | some claim => .ok claim.data.issuance_date)

/-- `meta_state`, `IdentityStateQuery::Verifiers(pkey, piece_id)`: the keys of
the claim's `verifiers` map. -/
def metaVerifiers (s : IdentityStorage) (pkey piece_id : Nat) :
    IdentityStorage × Except IdentityError (List Nat) :=
  (s,
   match alookup pkey s.user_claims with
   | none => .error .NotFound
   | some claims =>
     match alookup piece_id claims with
     | none => .error .NotFound
     | some claim => .ok (claim.verifiers.map Prod.fst))

/-- `IdentityStateQuery` (io: `pub enum IdentityStateQuery`): the five
read-only queries dispatched by `meta_state`. -/
inductive IdentityStateQuery where
  | UserClaims (pkey : Nat)
  | Claim (pkey piece_id : Nat)
  | Verifiers (pkey piece_id : Nat)
  | ValidationStatus (pkey piece_id : Nat)
  | Date (pkey piece_id : Nat)
  deriving DecidableEq, Repr

/-- `IdentityStateReply` (io: `pub enum IdentityStateReply`). -/
inductive IdentityStateReply where
  | UserClaims (claims : List (Nat × Identity.Claim))
  | Claim (c : Option Identity.Claim)
  | Verifiers (keys : List Nat)
  | ValidationStatus (valid : Bool)
  | Date (date : Nat)
  deriving DecidableEq, Repr

/-- The dispatch of `meta_state` over a decoded `IdentityStateQuery`,
against a given storage. -/
def metaState (s : IdentityStorage) :
    IdentityStateQuery → IdentityStorage × Except IdentityError IdentityStateReply
  | .UserClaims pkey =>
    let r := metaUserClaims s pkey
    (r.fst, .ok (.UserClaims r.snd))
  | .Claim pkey piece_id =>
    let r := metaClaim s pkey piece_id
    (r.fst, .ok (.Claim r.snd))
  | .Verifiers pkey piece_id =>
    let r := metaVerifiers s pkey piece_id
    (r.fst, r.snd.map .Verifiers)
  | .ValidationStatus pkey piece_id =>
    let r := metaValidationStatus s pkey piece_id
    (r.fst, r.snd.map .ValidationStatus)
  | .Date pkey piece_id =>
    let r := metaDate s pkey piece_id
    (r.fst, r.snd.map .Date)

/-- `init`: rejects a zero `owner_id`, otherwise creates the storage with
`piece_counter = 1` and the remaining fields defaulted. -/
def init (owner_id : Nat) : Except IdentityError IdentityStorage :=
  if owner_id = 0 then .error .InvalidKey
  else .ok { defaultStorage with owner_id := owner_id, piece_counter := 1 }

/-- `main`'s `IDENTITY.get_or_insert(Default::default())`: an uninitialized
global cell is silently replaced by the default storage before the action is
handled. -/
def handleMessage (g : Option IdentityStorage) (a : IdentityAction) :
    IdentityStorage × Except IdentityError IdentityEvent :=
  handle (g.getD defaultStorage) a

/-- `meta_state`'s own `IDENTITY.get_or_insert(Default::default())`: a query
handled with the global cell still unset also runs against the silently
created default storage. -/
def metaStateMessage (g : Option IdentityStorage) (q : IdentityStateQuery) :
    IdentityStorage × Except IdentityError IdentityStateReply :=
  metaState (g.getD defaultStorage) q

/-- The claim stored at `(subject, piece_id)`: the composition of the two
`BTreeMap` lookups. -/
def claimLookup (s : IdentityStorage) (subject piece_id : Nat) : Option Claim :=
  (alookup subject s.user_claims).bind (fun claims => alookup piece_id claims)

/-- A run of `IssueClaim` calls: `none` as soon as one call fails, otherwise
the final state together with the `piece_id`s carried by the emitted
`ClaimIssued` events, in call order. -/
def runIssues (s : IdentityStorage) :
    List (Nat × Nat × Nat × ClaimData) → Option (IdentityStorage × List Nat)
  | [] => some (s, [])
  | (issuer, issuer_signature, subject, data) :: rest =>
    match issue_claim s issuer issuer_signature subject data with
    | (s', .ok (.ClaimIssued _ _ pid)) =>
      match runIssues s' rest with
      | some (s'', ids) => some (s'', pid :: ids)
      | none => none
    | _ => none

/-- The representation invariant of the store, from the spec's §3 points 1
and 4, at the level of one claim: no key or signature field is the reserved
zero value and no verifier is the claim's issuer or subject. -/
def ClaimInv (c : Claim) : Prop :=
  c.issuer ≠ 0 ∧ c.subject ≠ 0 ∧ c.issuer_signature ≠ 0 ∧
  ∀ p ∈ c.verifiers, p.1 ≠ 0 ∧ p.2 ≠ 0 ∧ p.1 ≠ c.issuer ∧ p.1 ≠ c.subject

/-- The representation invariant over the whole store: every stored claim
satisfies `ClaimInv`. -/
def StoreInv (s : IdentityStorage) : Prop :=
  ∀ e ∈ s.user_claims, ∀ q ∈ e.2, ClaimInv q.2

instance (c : Claim) : Decidable (ClaimInv c) := by
  unfold ClaimInv
  infer_instance

instance (s : IdentityStorage) : Decidable (StoreInv s) := by
  unfold StoreInv
  infer_instance

/-- The single state transition a successful operation performs, stated
through `claimLookup`: the targeted cell gets the documented new value, every
other cell, the owner, and (except for issuance) the counter are untouched;
`CheckClaim` changes nothing. -/
def SingleChange (s : IdentityStorage) (a : IdentityAction)
    (s' : IdentityStorage) : Prop :=
  match a with
  | .IssueClaim issuer issuer_signature subject data =>
    s'.owner_id = s.owner_id ∧ s'.piece_counter = s.piece_counter + 1 ∧
    ∀ S id, claimLookup s' S id =
      if S = subject ∧ id = s.piece_counter then
        some { issuer := issuer, issuer_signature := issuer_signature,
               subject := subject, verifiers := [], data := data }
      else claimLookup s S id
  | .ClaimValidationStatus _ subject piece_id status =>
    s'.owner_id = s.owner_id ∧ s'.piece_counter = s.piece_counter ∧
    ∃ c, claimLookup s subject piece_id = some c ∧
      ∀ S id, claimLookup s' S id =
        if S = subject ∧ id = piece_id then
          some { c with data := { c.data with valid := status } }
        else claimLookup s S id
  | .VerifyClaim verifier verifier_signature subject piece_id =>
    s'.owner_id = s.owner_id ∧ s'.piece_counter = s.piece_counter ∧
    ∃ c, claimLookup s subject piece_id = some c ∧
      ∀ S id, claimLookup s' S id =
        if S = subject ∧ id = piece_id then
          some { c with verifiers := ainsert verifier verifier_signature c.verifiers }
        else claimLookup s S id
  | .CheckClaim _ _ _ => s' = s

/-! Concrete fixtures used to instantiate the theorems below. -/

/-- Sample claim data with two hashes. -/
def sampleData : ClaimData :=
  { hashed_info := [10, 20], issuance_date := 0, valid := false }

/-- A sample claim issued by `3` for subject `2`. -/
def sampleClaim : Claim :=
  { issuer := 3, issuer_signature := 7, subject := 2, verifiers := [],
    data := sampleData }

/-- A sample ledger holding `sampleClaim` at `(2, 5)`. -/
def sampleStore : IdentityStorage :=
  { owner_id := 1, user_claims := [(2, [(5, sampleClaim)])], piece_counter := 9 }

section MapLemmas

variable {α : Type}

theorem alookup_ainsert_self (k : Nat) (v : α) (l : List (Nat × α)) :
    alookup k (ainsert k v l) = some v := by
  induction l with
  | nil => simp [ainsert, alookup]
  | cons p rest ih =>
    by_cases h : k = p.1 <;> simp [ainsert, alookup, h, ih]

theorem alookup_ainsert_ne {k k' : Nat} (h : k ≠ k') (v : α) (l : List (Nat × α)) :
    alookup k (ainsert k' v l) = alookup k l := by
  induction l with
  | nil => simp [ainsert, alookup, h]
  | cons p rest ih =>
    by_cases h' : k' = p.1
    · subst h'
      simp [ainsert, alookup, h]
    · by_cases h'' : k = p.1 <;> simp [ainsert, alookup, h', h'', ih]

theorem alookup_aupdate_self (k : Nat) (d : α) (f : α → α) (l : List (Nat × α)) :
    alookup k (aupdate k d f l) = some (f ((alookup k l).getD d)) := by
  induction l with
  | nil => simp [aupdate, alookup]
  | cons p rest ih =>
    by_cases h : k = p.1 <;> simp [aupdate, alookup, h, ih]

theorem alookup_aupdate_ne {k k' : Nat} (h : k ≠ k') (d : α) (f : α → α)
    (l : List (Nat × α)) : alookup k (aupdate k' d f l) = alookup k l := by
  induction l with
  | nil => simp [aupdate, alookup, h]
  | cons p rest ih =>
    by_cases h' : k' = p.1
    · subst h'
      simp [aupdate, alookup, h]
    · by_cases h'' : k = p.1 <;> simp [aupdate, alookup, h', h'', ih]

theorem alookup_amodify_self (k : Nat) (f : α → α) (l : List (Nat × α)) :
    alookup k (amodify k f l) = (alookup k l).map f := by
  induction l with
  | nil => simp [amodify, alookup]
  | cons p rest ih =>
    by_cases h : k = p.1 <;> simp [amodify, alookup, h, ih]

theorem alookup_amodify_ne {k k' : Nat} (h : k ≠ k') (f : α → α)
    (l : List (Nat × α)) : alookup k (amodify k' f l) = alookup k l := by
  induction l with
  | nil => simp [amodify, alookup]
  | cons p rest ih =>
    by_cases h' : k' = p.1
    · subst h'
      simp [amodify, alookup, h]
    · by_cases h'' : k = p.1 <;> simp [amodify, alookup, h', h'', ih]

theorem aupdate_pure_present {k : Nat} {l : List (Nat × α)} (d : α)
    (h : alookup k l ≠ none) : aupdate k d (fun m => m) l = l := by
  induction l with
  | nil => simp [alookup] at h
  | cons p rest ih =>
    by_cases h' : k = p.1
    · simp [aupdate, h']
    · simp [alookup, h'] at h
      simp [aupdate, h', ih h]

theorem aupdate_absent {k : Nat} {l : List (Nat × α)} (d : α) (f : α → α)
    (h : alookup k l = none) : aupdate k d f l = l ++ [(k, f d)] := by
  induction l with
  | nil => simp [aupdate]
  | cons p rest ih =>
    by_cases h' : k = p.1
    · simp [alookup, h'] at h
    · simp [alookup, h'] at h
      simp [aupdate, h', ih h]

theorem alookup_mem {k : Nat} {v : α} {l : List (Nat × α)}
    (h : alookup k l = some v) : (k, v) ∈ l := by
  induction l with
  | nil => simp [alookup] at h
  | cons p rest ih =>
    by_cases h' : k = p.1
    · simp [alookup, h'] at h
      exact List.mem_cons.2 (Or.inl (by rw [h', ← h]))
    · simp [alookup, h'] at h
      exact List.mem_cons_of_mem _ (ih h)

theorem mem_ainsert {p : Nat × α} {k : Nat} {v : α} {l : List (Nat × α)}
    (h : p ∈ ainsert k v l) : p = (k, v) ∨ p ∈ l := by
  induction l with
  | nil => simpa [ainsert] using h
  | cons q rest ih =>
    by_cases h' : k = q.1
    · simp [ainsert, h'] at h
      rcases h with h | h
      · exact Or.inl (by simp [h', h])
      · exact Or.inr (List.mem_cons_of_mem _ h)
    · simp [ainsert, h'] at h
      rcases h with h | h
      · exact Or.inr (by simp [h])
      · rcases ih h with h'' | h''
        · exact Or.inl h''
        · exact Or.inr (List.mem_cons_of_mem _ h'')

theorem mem_amodify {p : Nat × α} {k : Nat} {f : α → α} {l : List (Nat × α)}
    (h : p ∈ amodify k f l) :
    p ∈ l ∨ ∃ v, p = (k, f v) ∧ alookup k l = some v := by
  induction l with
  | nil => simp [amodify] at h
  | cons q rest ih =>
    by_cases h' : k = q.1
    · simp [amodify, h'] at h
      rcases h with h | h
      · exact Or.inr ⟨q.2, by simp [h, h'], by simp [alookup, h']⟩
      · exact Or.inl (List.mem_cons_of_mem _ h)
    · simp [amodify, h'] at h
      rcases h with h | h
      · exact Or.inl (by simp [h])
      · rcases ih h with h'' | ⟨v, hv, hl⟩
        · exact Or.inl (List.mem_cons_of_mem _ h'')
        · exact Or.inr ⟨v, hv, by simp [alookup, h', hl]⟩

theorem mem_aupdate {p : Nat × α} {k : Nat} {d : α} {f : α → α}
    {l : List (Nat × α)} (h : p ∈ aupdate k d f l) :
    p ∈ l ∨ (∃ v, p = (k, f v) ∧ alookup k l = some v) ∨
      (p = (k, f d) ∧ alookup k l = none) := by
  induction l with
  | nil =>
    simp [aupdate] at h
    exact Or.inr (Or.inr ⟨by simp [h], by simp [alookup]⟩)
  | cons q rest ih =>
    by_cases h' : k = q.1
    · simp [aupdate, h'] at h
      rcases h with h | h
      · exact Or.inr (Or.inl ⟨q.2, by simp [h, h'], by simp [alookup, h']⟩)
      · exact Or.inl (List.mem_cons_of_mem _ h)
    · simp [aupdate, h'] at h
      rcases h with h | h
      · exact Or.inl (by simp [h])
      · rcases ih h with h'' | ⟨v, hv, hl⟩ | ⟨hv, hl⟩
        · exact Or.inl (List.mem_cons_of_mem _ h'')
        · exact Or.inr (Or.inl ⟨v, hv, by simp [alookup, h', hl]⟩)
        · exact Or.inr (Or.inr ⟨hv, by simp [alookup, h', hl]⟩)

theorem count_map_fst_ainsert {k : Nat} (v : α) {l : List (Nat × α)}
    (h : (l.map Prod.fst).Nodup) :
    ((ainsert k v l).map Prod.fst).count k = 1 := by
  induction l with
  | nil => simp [ainsert]
  | cons q rest ih =>
    by_cases h' : k = q.1
    · subst h'
      simp only [List.map_cons, List.nodup_cons] at h
      simp [ainsert, List.count_cons, List.count_eq_zero.2 h.1]
    · simp only [List.map_cons, List.nodup_cons] at h
      simp [ainsert, h', List.count_cons, ih h.2, Ne.symm h']

theorem bind_alookup_getD (o : Option (List (Nat × α))) (k : Nat) :
    (o.bind fun m => alookup k m) = alookup k (o.getD []) := by
  cases o <;> simp [alookup]

theorem alookup_ainsert (k k' : Nat) (v : α) (l : List (Nat × α)) :
    alookup k (ainsert k' v l) =
      if k = k' then some v else alookup k l := by
  by_cases h : k = k'
  · subst h
    simp [alookup_ainsert_self]
  · simp [h, alookup_ainsert_ne h]

theorem alookup_amodify (k k' : Nat) (f : α → α) (l : List (Nat × α)) :
    alookup k (amodify k' f l) =
      if k = k' then (alookup k' l).map f else alookup k l := by
  by_cases h : k = k'
  · subst h
    simp [alookup_amodify_self]
  · simp [h, alookup_amodify_ne h]

theorem alookup_aupdate (k k' : Nat) (d : α) (f : α → α) (l : List (Nat × α)) :
    alookup k (aupdate k' d f l) =
      if k = k' then some (f ((alookup k' l).getD d)) else alookup k l := by
  by_cases h : k = k'
  · subst h
    simp [alookup_aupdate_self]
  · simp [h, alookup_aupdate_ne h]

end MapLemmas

/-- C6: for every existing `(subject, piece_id)` pair and every hash,
`CheckClaim` leaves the state unchanged and reports exactly whether the hash
is a member of the claim's `hashed_info`; for an absent pair it fails with
`NotFound`. -/
theorem check_claim_membership (s : IdentityStorage) (subject piece_id hash : Nat) :
    (∀ c : Claim, claimLookup s subject piece_id = some c →
      check_claim s subject piece_id hash =
        (s, .ok (.CheckedClaim subject piece_id (decide (hash ∈ c.data.hashed_info))))) ∧
    (claimLookup s subject piece_id = none →
      check_claim s subject piece_id hash = (s, .error .NotFound)) := by
  unfold claimLookup check_claim
  cases hS : alookup subject s.user_claims with
  | none => simp [hS]
  | some claims =>
    cases hP : alookup piece_id claims with
    | none => simp [hS, hP]
    | some c => simp [hS, hP]

/-- C6 instantiated: the two hashes `sampleClaim` was issued with are
reported as members, and a third hash is reported as a non-member. -/
theorem check_claim_membership_witness :
    check_claim sampleStore 2 5 10 = (sampleStore, .ok (.CheckedClaim 2 5 true)) ∧
    check_claim sampleStore 2 5 30 = (sampleStore, .ok (.CheckedClaim 2 5 false)) := by
  constructor
  · have h := (check_claim_membership sampleStore 2 5 10).1 sampleClaim (by decide)
    simpa using h
  · have h := (check_claim_membership sampleStore 2 5 30).1 sampleClaim (by decide)
    simpa using h

/-- C2 counterexample: `check_claim` performs no zero-key check — called on
the freshly initialized store with the zero subject it fails with `NotFound`,
not with `InvalidKey` as the claim states. -/
theorem check_claim_zero_subject_counterexample :
    init 1 = .ok { owner_id := 1, user_claims := [], piece_counter := 1 } ∧
    check_claim { owner_id := 1, user_claims := [], piece_counter := 1 } 0 0 0 =
      ({ owner_id := 1, user_claims := [], piece_counter := 1 }, .error .NotFound) ∧
    IdentityError.NotFound ≠ IdentityError.InvalidKey := by
  refine ⟨rfl, rfl, by decide⟩

/-- C2 (amended): `IssueClaim`, `ChangeValidationStatus` and `VerifyClaim`
fail with `InvalidKey` and leave the state unchanged whenever any of their
public-key or signature fields is the reserved zero value; `CheckClaim`
performs no zero-key check and, whenever the zero subject holds no claims
(always, in any state reachable from initialization), fails with `NotFound`
with the state unchanged. -/
theorem zero_key_rejection (s : IdentityStorage) :
    (∀ issuer issuer_signature subject data,
      (subject = 0 ∨ issuer_signature = 0 ∨ issuer = 0) →
      issue_claim s issuer issuer_signature subject data = (s, .error .InvalidKey)) ∧
    (∀ validator subject piece_id status,
      (validator = 0 ∨ subject = 0) →
      validation_status s validator subject piece_id status = (s, .error .InvalidKey)) ∧
    (∀ verifier verifier_signature subject piece_id,
      (verifier = 0 ∨ subject = 0 ∨ verifier_signature = 0) →
      verify_claim s verifier verifier_signature subject piece_id = (s, .error .InvalidKey)) ∧
    (∀ piece_id hash, alookup 0 s.user_claims = none →
      check_claim s 0 piece_id hash = (s, .error .NotFound)) := by
  refine ⟨?_, ?_, ?_, ?_⟩
  · intro issuer issuer_signature subject data h
    simp [issue_claim, h]
  · intro validator subject piece_id status h
    simp [validation_status, h]
  · intro verifier verifier_signature subject piece_id h
    simp [verify_claim, h]
  · intro piece_id hash h
    simp [check_claim, h]

/-- C2 (amended) instantiated on `sampleStore` with a zero field in each
operation. -/
theorem zero_key_rejection_witness :
    issue_claim sampleStore 1 1 0 sampleData = (sampleStore, .error .InvalidKey) ∧
    validation_status sampleStore 0 2 5 true = (sampleStore, .error .InvalidKey) ∧
    verify_claim sampleStore 4 0 2 5 = (sampleStore, .error .InvalidKey) ∧
    check_claim sampleStore 0 5 10 = (sampleStore, .error .NotFound) := by
  refine ⟨?_, ?_, ?_, ?_⟩
  · exact (zero_key_rejection sampleStore).1 1 1 0 sampleData (Or.inl rfl)
  · exact (zero_key_rejection sampleStore).2.1 0 2 5 true (Or.inl rfl)
  · exact (zero_key_rejection sampleStore).2.2.1 4 0 2 5 (Or.inr (Or.inr rfl))
  · exact (zero_key_rejection sampleStore).2.2.2 5 10 (by decide)

/-- C1 counterexample: the `Claim` state query on an unknown subject mutates
the ledger — on the freshly initialized store, querying subject `1` inserts
an empty claim map for `1`, so the state after the query differs from the
state before it. -/
theorem metaClaim_mutates_counterexample :
    (metaClaim { owner_id := 1, user_claims := [], piece_counter := 1 } 1 0).fst ≠
      { owner_id := 1, user_claims := [], piece_counter := 1 } := by
  decide

/-- C1 (amended): the `UserClaims`, `ValidationStatus`, `Date` and
`Verifiers` queries never change the ledger state; the `Claim` query leaves
the state unchanged when the queried subject is present, and for an absent
subject inserts exactly one empty claim map for that subject. -/
theorem queries_read_only (s : IdentityStorage) (pkey piece_id : Nat) :
    (metaUserClaims s pkey).fst = s ∧
    (metaValidationStatus s pkey piece_id).fst = s ∧
    (metaDate s pkey piece_id).fst = s ∧
    (metaVerifiers s pkey piece_id).fst = s ∧
    (alookup pkey s.user_claims ≠ none → (metaClaim s pkey piece_id).fst = s) ∧
    (alookup pkey s.user_claims = none →
      (metaClaim s pkey piece_id).fst =
        { s with user_claims := s.user_claims ++ [(pkey, [])] }) := by
  refine ⟨rfl, rfl, rfl, rfl, ?_, ?_⟩
  · intro h
    simp [metaClaim, aupdate_pure_present _ h]
  · intro h
    simp [metaClaim, aupdate_absent _ _ h]

/-- C1 (amended) instantiated: reading a present subject leaves
`sampleStore` unchanged; reading the absent subject `4` appends exactly an
empty claim map for `4`. -/
theorem queries_read_only_witness :
    (metaUserClaims sampleStore 2).fst = sampleStore ∧
    (metaClaim sampleStore 2 5).fst = sampleStore ∧
    (metaClaim sampleStore 4 5).fst =
      { sampleStore with user_claims := sampleStore.user_claims ++ [(4, [])] } := by
  refine ⟨(queries_read_only sampleStore 2 5).1, ?_, ?_⟩
  · exact (queries_read_only sampleStore 2 5).2.2.2.2.1 (by decide)
  · exact (queries_read_only sampleStore 4 5).2.2.2.2.2 (by decide)

/-- C4: for a stored claim with issuer `I` and subject `S`, a non-zero
validator `V` may change the validation status iff `V = I` or `V = S`; any
other `V` fails with `Unauthorized` and the state (hence `data.valid`) is
unchanged; on success `data.valid` becomes `status` (regardless of its
previous value, so repeating a status is legal and re-emits the event) and
the `ValidationStatus` query immediately reports the new value. -/
theorem change_validation_status_auth (s : IdentityStorage)
    (I S piece_id V : Nat) (status : Bool) (c : Claim)
    (hc : claimLookup s S piece_id = some c)
    (hI : c.issuer = I) (hS : c.subject = S)
    (hS0 : S ≠ 0) (hV0 : V ≠ 0) :
    ((V = I ∨ V = S) →
      (validation_status s V S piece_id status).snd =
        .ok (.ClaimValidationChanged V S piece_id status) ∧
      claimLookup (validation_status s V S piece_id status).fst S piece_id =
        some { c with data := { c.data with valid := status } } ∧
      (metaValidationStatus (validation_status s V S piece_id status).fst S piece_id).snd =
        .ok status) ∧
    (¬(V = I ∨ V = S) →
      validation_status s V S piece_id status = (s, .error .Unauthorized)) := by
  unfold claimLookup at hc
  cases hM : alookup S s.user_claims with
  | none => rw [hM] at hc; simp at hc
  | some m =>
    rw [hM] at hc
    simp only [Option.some_bind] at hc
    constructor
    · intro hauth
      have hcond : ¬(c.subject ≠ V ∧ c.issuer ≠ V) := by
        rcases hauth with h | h
        · exact fun hand => hand.2 (by rw [hI, h])
        · exact fun hand => hand.1 (by rw [hS, h])
      have hrun : validation_status s V S piece_id status =
          ({ s with
              user_claims :=
                aupdate S []
                  (amodify piece_id
                    (fun claim => { claim with data := { claim.data with valid := status } }))
                  s.user_claims },
           .ok (.ClaimValidationChanged V S piece_id status)) := by
        simp [validation_status, hV0, hS0, hM, hc, hcond]
      rw [hrun]
      refine ⟨rfl, ?_, ?_⟩
      · simp [claimLookup, alookup_aupdate_self, hM, alookup_amodify_self, hc]
      · simp [metaValidationStatus, alookup_aupdate_self, hM, alookup_amodify_self, hc]
    · intro hnot
      push_neg at hnot
      have hcond : c.subject ≠ V ∧ c.issuer ≠ V :=
        ⟨by rw [hS]; exact fun h => hnot.2 h.symm,
         by rw [hI]; exact fun h => hnot.1 h.symm⟩
      simp [validation_status, hV0, hS0, hM, hc, hcond]

/-- C4 instantiated: the issuer `3` of `sampleClaim` flips its status to
`true`; the stored claim and the `ValidationStatus` query reflect it. -/
theorem change_validation_status_auth_witness :
    (validation_status sampleStore 3 2 5 true).snd =
      .ok (.ClaimValidationChanged 3 2 5 true) ∧
    claimLookup (validation_status sampleStore 3 2 5 true).fst 2 5 =
      some { sampleClaim with data := { sampleClaim.data with valid := true } } ∧
    (metaValidationStatus (validation_status sampleStore 3 2 5 true).fst 2 5).snd =
      .ok true :=
  (change_validation_status_auth sampleStore 3 2 5 3 true sampleClaim (by decide)
    rfl rfl (by decide) (by decide)).1 (Or.inl rfl)

/-- C5: for a stored claim, a non-zero verifier `V` with non-zero signature
fails with `Unauthorized` (state unchanged) iff `V` is the claim's issuer or
subject; otherwise verification succeeds, stores `verifiers[V] = sig`
(replacing any previous signature of `V`), and the `Verifiers` query then
lists `V` exactly once. -/
theorem verify_claim_auth (s : IdentityStorage) (S piece_id V sig : Nat) (c : Claim)
    (hc : claimLookup s S piece_id = some c)
    (hS0 : S ≠ 0) (hV0 : V ≠ 0) (hsig0 : sig ≠ 0)
    (hnd : (c.verifiers.map Prod.fst).Nodup) :
    ((V = c.issuer ∨ V = c.subject) →
      verify_claim s V sig S piece_id = (s, .error .Unauthorized)) ∧
    (¬(V = c.issuer ∨ V = c.subject) →
      (verify_claim s V sig S piece_id).snd = .ok (.VerifiedClaim V S piece_id) ∧
      claimLookup (verify_claim s V sig S piece_id).fst S piece_id =
        some { c with verifiers := ainsert V sig c.verifiers } ∧
      alookup V (ainsert V sig c.verifiers) = some sig ∧
      (metaVerifiers (verify_claim s V sig S piece_id).fst S piece_id).snd =
        .ok ((ainsert V sig c.verifiers).map Prod.fst) ∧
      ((ainsert V sig c.verifiers).map Prod.fst).count V = 1) := by
  unfold claimLookup at hc
  cases hM : alookup S s.user_claims with
  | none => rw [hM] at hc; simp at hc
  | some m =>
    rw [hM] at hc
    simp only [Option.some_bind] at hc
    constructor
    · intro hauth
      have hcond : c.issuer = V ∨ c.subject = V := by
        rcases hauth with h | h
        · exact Or.inl h.symm
        · exact Or.inr h.symm
      simp [verify_claim, hV0, hS0, hsig0, hM, hc, hcond]
    · intro hnot
      push_neg at hnot
      have hcond : ¬(c.issuer = V ∨ c.subject = V) := by
        rintro (h | h)
        · exact hnot.1 h.symm
        · exact hnot.2 h.symm
      have hrun : verify_claim s V sig S piece_id =
          ({ s with
              user_claims :=
                aupdate S []
                  (amodify piece_id
                    (fun claim => { claim with verifiers := ainsert V sig claim.verifiers }))
                  s.user_claims },
           .ok (.VerifiedClaim V S piece_id)) := by
        simp [verify_claim, hV0, hS0, hsig0, hM, hc, hcond]
      rw [hrun]
      refine ⟨rfl, ?_, alookup_ainsert_self V sig c.verifiers, ?_,
        count_map_fst_ainsert sig hnd⟩
      · simp [claimLookup, alookup_aupdate_self, hM, alookup_amodify_self, hc]
      · simp [metaVerifiers, alookup_aupdate_self, hM, alookup_amodify_self, hc]

/-- C5 instantiated: the third party `4` verifies `sampleClaim` with
signature `11`; the signature is stored and the `Verifiers` query lists `4`
exactly once. -/
theorem verify_claim_auth_witness :
    (verify_claim sampleStore 4 11 2 5).snd = .ok (.VerifiedClaim 4 2 5) ∧
    claimLookup (verify_claim sampleStore 4 11 2 5).fst 2 5 =
      some { sampleClaim with verifiers := ainsert 4 11 sampleClaim.verifiers } ∧
    alookup 4 (ainsert 4 11 sampleClaim.verifiers) = some 11 ∧
    (metaVerifiers (verify_claim sampleStore 4 11 2 5).fst 2 5).snd =
      .ok ((ainsert 4 11 sampleClaim.verifiers).map Prod.fst) ∧
    ((ainsert 4 11 sampleClaim.verifiers).map Prod.fst).count 4 = 1 :=
  (verify_claim_auth sampleStore 2 5 4 11 sampleClaim (by decide) (by decide)
    (by decide) (by decide) (by decide)).2 (by decide)

/-- A successful issuance: the checks passed, the claim is stored under
`(subject, piece_counter)` and the event carries the pre-increment counter. -/
theorem issue_claim_ok {s : IdentityStorage} {issuer issuer_signature subject : Nat}
    {data : ClaimData} (hz : ¬(subject = 0 ∨ issuer_signature = 0 ∨ issuer = 0)) :
    issue_claim s issuer issuer_signature subject data =
      ({ s with
          user_claims :=
            aupdate subject []
              (ainsert s.piece_counter
                { issuer := issuer, issuer_signature := issuer_signature,
                  subject := subject, verifiers := [], data := data })
              s.user_claims,
          piece_counter := s.piece_counter + 1 },
       .ok (.ClaimIssued issuer subject s.piece_counter)) := by
  simp [issue_claim, hz]

/-- A successful run of issuances advances the counter by the number of calls
and hands out exactly the ids `piece_counter, piece_counter + 1, …`. -/
theorem runIssues_spec (args : List (Nat × Nat × Nat × ClaimData)) :
    ∀ (s s' : IdentityStorage) (ids : List Nat),
      runIssues s args = some (s', ids) →
      s'.piece_counter = s.piece_counter + args.length ∧
      ids = List.range' s.piece_counter args.length := by
  induction args with
  | nil =>
    intro s s' ids h
    simp [runIssues] at h
    simp [← h.1, ← h.2]
  | cons a rest ih =>
    intro s s' ids h
    obtain ⟨issuer, issuer_signature, subject, data⟩ := a
    by_cases hz : subject = 0 ∨ issuer_signature = 0 ∨ issuer = 0
    · simp [runIssues, issue_claim, hz] at h
    · simp only [runIssues] at h
      rw [issue_claim_ok hz] at h
      dsimp only at h
      cases hR : runIssues { s with
          user_claims :=
            aupdate subject []
              (ainsert s.piece_counter
                { issuer := issuer, issuer_signature := issuer_signature,
                  subject := subject, verifiers := [], data := data })
              s.user_claims,
          piece_counter := s.piece_counter + 1 } rest with
      | none => rw [hR] at h; simp at h
      | some p =>
        rw [hR] at h
        obtain ⟨s'', ids'⟩ := p
        simp only [Option.some.injEq, Prod.mk.injEq] at h
        obtain ⟨hs, hids⟩ := h
        obtain ⟨hc, hi⟩ := ih _ _ _ hR
        subst hs
        constructor
        · rw [hc]
          simp [Nat.add_assoc, Nat.add_comm 1 rest.length]
        · rw [← hids, hi]
          simp [List.range'_succ]

/-- C3: along every run of successful `IssueClaim` calls the handed-out
`piece_id`s are strictly increasing and never repeat (whatever the
subjects), the counter only increases (under every operation, successful or
not), and every id issued in the run is strictly below the final value of
the counter. -/
theorem monotonic_piece_ids :
    (∀ (s : IdentityStorage) (args : List (Nat × Nat × Nat × ClaimData))
        (s' : IdentityStorage) (ids : List Nat),
      runIssues s args = some (s', ids) →
      ids.Pairwise (· < ·) ∧ ids.Nodup ∧
      s.piece_counter ≤ s'.piece_counter ∧
      ∀ id ∈ ids, id < s'.piece_counter) ∧
    (∀ (s : IdentityStorage) (a : IdentityAction),
      s.piece_counter ≤ ((handle s a).fst).piece_counter) := by
  constructor
  · intro s args s' ids h
    obtain ⟨hc, hi⟩ := runIssues_spec args s s' ids h
    subst hi
    refine ⟨List.pairwise_lt_range' _ _, List.nodup_range' _ _, by omega, ?_⟩
    intro id hid
    rw [List.mem_range'_1] at hid
    omega
  · intro s a
    cases a with
    | IssueClaim issuer issuer_signature subject data =>
      simp only [handle, issue_claim]
      split
      · simp
      · simp
    | ClaimValidationStatus validator subject piece_id status =>
      simp only [handle, validation_status]
      split
      · simp
      · split
        · simp
        · split
          · simp
          · split <;> simp
    | VerifyClaim verifier verifier_signature subject piece_id =>
      simp only [handle, verify_claim]
      split
      · simp
      · split
        · simp
        · split
          · simp
          · split <;> simp
    | CheckClaim subject piece_id hash =>
      simp only [handle, check_claim]
      split
      · simp
      · split <;> simp

/-- C3 instantiated: a two-call run on `sampleStore` hands out the ids
`9` and `10` in order, and the final counter `11` bounds both. -/
theorem monotonic_piece_ids_witness :
    List.Pairwise (· < ·) [9, 10] ∧ [9, 10].Nodup ∧
    sampleStore.piece_counter ≤ 11 ∧ ∀ id ∈ [9, 10], id < 11 := by
  have h := (monotonic_piece_ids).1 sampleStore
    [(3, 7, 2, sampleData), (3, 7, 6, sampleData)]
    { owner_id := 1,
      user_claims :=
        [(2, [(5, sampleClaim),
              (9, { issuer := 3, issuer_signature := 7, subject := 2,
                    verifiers := [], data := sampleData })]),
         (6, [(10, { issuer := 3, issuer_signature := 7, subject := 6,
                     verifiers := [], data := sampleData })])],
      piece_counter := 11 }
    [9, 10] (by decide)
  exact h

/-- C8: initialization with a zero owner fails with `InvalidKey`; with a
non-zero owner it produces the empty claim map and the chosen start value
`piece_counter = 1`, so the first successful `IssueClaim` afterwards is
assigned `piece_id = 1` and `ClaimIssued` carries that id. -/
theorem init_contract :
    init 0 = .error .InvalidKey ∧
    ∀ owner : Nat, owner ≠ 0 →
      init owner = .ok { owner_id := owner, user_claims := [], piece_counter := 1 } ∧
      ∀ (issuer issuer_signature subject : Nat) (data : ClaimData),
        ¬(subject = 0 ∨ issuer_signature = 0 ∨ issuer = 0) →
        issue_claim { owner_id := owner, user_claims := [], piece_counter := 1 }
            issuer issuer_signature subject data =
          ({ owner_id := owner,
             user_claims :=
               [(subject, [(1, { issuer := issuer,
                                 issuer_signature := issuer_signature,
                                 subject := subject, verifiers := [],
                                 data := data })])],
             piece_counter := 2 },
           .ok (.ClaimIssued issuer subject 1)) := by
  refine ⟨rfl, ?_⟩
  intro owner howner
  constructor
  · simp [init, howner, defaultStorage]
  · intro issuer issuer_signature subject data hz
    rw [issue_claim_ok hz]
    simp [aupdate, ainsert]

/-- C8 instantiated with owner `1` and a first issuance by `3` for `2`. -/
theorem init_contract_witness :
    init 1 = .ok { owner_id := 1, user_claims := [], piece_counter := 1 } ∧
    issue_claim { owner_id := 1, user_claims := [], piece_counter := 1 } 3 7 2 sampleData =
      ({ owner_id := 1,
         user_claims :=
           [(2, [(1, { issuer := 3, issuer_signature := 7, subject := 2,
                       verifiers := [], data := sampleData })])],
         piece_counter := 2 },
       .ok (.ClaimIssued 3 2 1)) := by
  have h := init_contract.2 1 (by decide)
  exact ⟨h.1, h.2 3 7 2 sampleData (by decide)⟩

/-- C10: handling any action — and likewise answering any of the five state
queries — with the global cell still unset silently runs against the default
store (zero owner, empty claims, counter `0`); the first issuance in that
state is assigned `piece_id = 0`, whereas after a successful `init` the
first issuance is assigned `piece_id = 1`. -/
theorem uninitialized_default_behavior :
    defaultStorage = { owner_id := 0, user_claims := [], piece_counter := 0 } ∧
    (∀ a : IdentityAction,
      handleMessage none a =
        handle { owner_id := 0, user_claims := [], piece_counter := 0 } a) ∧
    (∀ q : IdentityStateQuery,
      metaStateMessage none q =
        metaState { owner_id := 0, user_claims := [], piece_counter := 0 } q) ∧
    (∀ (issuer issuer_signature subject : Nat) (data : ClaimData),
      ¬(subject = 0 ∨ issuer_signature = 0 ∨ issuer = 0) →
      (handleMessage none (.IssueClaim issuer issuer_signature subject data)).snd =
        .ok (.ClaimIssued issuer subject 0) ∧
      ∀ (owner : Nat) (s0 : IdentityStorage), init owner = .ok s0 →
        (handleMessage (some s0) (.IssueClaim issuer issuer_signature subject data)).snd =
          .ok (.ClaimIssued issuer subject 1)) := by
  refine ⟨rfl, fun a => rfl, fun q => rfl, ?_⟩
  intro issuer issuer_signature subject data hz
  constructor
  · simp [handleMessage, handle, issue_claim_ok hz, defaultStorage]
  · intro owner s0 h0
    by_cases howner : owner = 0
    · simp [init, howner] at h0
    · simp [init, howner, defaultStorage] at h0
      simp [handleMessage, handle, issue_claim_ok hz, ← h0]

/-- C10 instantiated: a query on the unset cell is answered against the
default store, and the same issuance gets id `0` before initialization and
id `1` right after `init 1`. -/
theorem uninitialized_default_behavior_witness :
    metaStateMessage none (.UserClaims 2) =
      metaState { owner_id := 0, user_claims := [], piece_counter := 0 }
        (.UserClaims 2) ∧
    (handleMessage none (.IssueClaim 3 7 2 sampleData)).snd =
      .ok (.ClaimIssued 3 2 0) ∧
    (handleMessage (some { owner_id := 1, user_claims := [], piece_counter := 1 })
        (.IssueClaim 3 7 2 sampleData)).snd =
      .ok (.ClaimIssued 3 2 1) := by
  have hq := uninitialized_default_behavior.2.2.1 (.UserClaims 2)
  have h := uninitialized_default_behavior.2.2.2 3 7 2 sampleData (by decide)
  exact ⟨hq, h.1, h.2 1 { owner_id := 1, user_claims := [], piece_counter := 1 } rfl⟩

/-- C9: every successful operation preserves the representation invariant —
no stored issuer, subject, verifier key or signature is the reserved zero
value, and no verifier key equals its claim's issuer or subject. -/
theorem store_inv_preserved (s : IdentityStorage) (a : IdentityAction)
    (s' : IdentityStorage) (ev : IdentityEvent)
    (hinv : StoreInv s) (h : handle s a = (s', .ok ev)) : StoreInv s' := by
  cases a with
  | IssueClaim issuer issuer_signature subject data =>
    by_cases hz : subject = 0 ∨ issuer_signature = 0 ∨ issuer = 0
    · simp [handle, issue_claim, hz] at h
    · rw [show handle s (.IssueClaim issuer issuer_signature subject data) =
          issue_claim s issuer issuer_signature subject data from rfl,
        issue_claim_ok hz] at h
      have hs := congrArg Prod.fst h
      dsimp only at hs
      rw [← hs]
      push_neg at hz
      intro e he q hq
      rcases mem_aupdate he with he | ⟨m, hem, hm⟩ | ⟨hed, -⟩
      · exact hinv e he q hq
      · rw [hem] at hq
        dsimp only at hq
        rcases mem_ainsert hq with hq | hq
        · rw [hq]
          exact ⟨hz.2.2, hz.1, hz.2.1, by simp⟩
        · exact hinv (subject, m) (alookup_mem hm) q hq
      · rw [hed] at hq
        dsimp only at hq
        rcases mem_ainsert hq with hq | hq
        · rw [hq]
          exact ⟨hz.2.2, hz.1, hz.2.1, by simp⟩
        · simp at hq
  | ClaimValidationStatus validator subject piece_id status =>
    by_cases hz : validator = 0 ∨ subject = 0
    · simp [handle, validation_status, hz] at h
    · cases hM : alookup subject s.user_claims with
      | none => simp [handle, validation_status, hz, hM] at h
      | some m =>
        cases hc : alookup piece_id m with
        | none => simp [handle, validation_status, hz, hM, hc] at h
        | some c =>
          by_cases hcond : c.subject ≠ validator ∧ c.issuer ≠ validator
          · simp [handle, validation_status, hz, hM, hc, hcond] at h
          · have hrun : handle s (.ClaimValidationStatus validator subject piece_id status) =
                ({ s with
                    user_claims :=
                      aupdate subject []
                        (amodify piece_id
                          (fun claim =>
                            { claim with data := { claim.data with valid := status } }))
                        s.user_claims },
                 .ok (.ClaimValidationChanged validator subject piece_id status)) := by
              simp [handle, validation_status, hz, hM, hc, hcond]
            rw [hrun] at h
            have hs := congrArg Prod.fst h
            dsimp only at hs
            rw [← hs]
            intro e he q hq
            rcases mem_aupdate he with he | ⟨m', hem, hm'⟩ | ⟨-, hnone⟩
            · exact hinv e he q hq
            · rw [hM] at hm'
              rw [hem] at hq
              dsimp only at hq
              cases Option.some.inj hm'
              rcases mem_amodify hq with hq | ⟨v, hqv, hv⟩
              · exact hinv (subject, m) (alookup_mem hM) q hq
              · rw [hc] at hv
                cases Option.some.inj hv
                rw [hqv]
                exact hinv (subject, m) (alookup_mem hM) (piece_id, c) (alookup_mem hc)
            · rw [hM] at hnone
              exact absurd hnone (by simp)
  | VerifyClaim verifier verifier_signature subject piece_id =>
    by_cases hz : verifier = 0 ∨ subject = 0 ∨ verifier_signature = 0
    · simp [handle, verify_claim, hz] at h
    · cases hM : alookup subject s.user_claims with
      | none => simp [handle, verify_claim, hz, hM] at h
      | some m =>
        cases hc : alookup piece_id m with
        | none => simp [handle, verify_claim, hz, hM, hc] at h
        | some c =>
          by_cases hcond : c.issuer = verifier ∨ c.subject = verifier
          · simp [handle, verify_claim, hz, hM, hc, hcond] at h
          · have hrun : handle s (.VerifyClaim verifier verifier_signature subject piece_id) =
                ({ s with
                    user_claims :=
                      aupdate subject []
                        (amodify piece_id
                          (fun claim =>
                            { claim with
                                verifiers :=
                                  ainsert verifier verifier_signature claim.verifiers }))
                        s.user_claims },
                 .ok (.VerifiedClaim verifier subject piece_id)) := by
              simp [handle, verify_claim, hz, hM, hc, hcond]
            rw [hrun] at h
            have hs := congrArg Prod.fst h
            dsimp only at hs
            rw [← hs]
            push_neg at hz hcond
            intro e he q hq
            rcases mem_aupdate he with he | ⟨m', hem, hm'⟩ | ⟨-, hnone⟩
            · exact hinv e he q hq
            · rw [hM] at hm'
              rw [hem] at hq
              dsimp only at hq
              cases Option.some.inj hm'
              rcases mem_amodify hq with hq | ⟨v, hqv, hv⟩
              · exact hinv (subject, m) (alookup_mem hM) q hq
              · rw [hc] at hv
                cases Option.some.inj hv
                rw [hqv]
                have hcInv : ClaimInv c :=
                  hinv (subject, m) (alookup_mem hM) (piece_id, c) (alookup_mem hc)
                refine ⟨hcInv.1, hcInv.2.1, hcInv.2.2.1, ?_⟩
                intro p hp
                rcases mem_ainsert hp with hp | hp
                · rw [hp]
                  exact ⟨hz.1, hz.2.2, fun hcontr => hcond.1 hcontr.symm,
                    fun hcontr => hcond.2 hcontr.symm⟩
                · exact hcInv.2.2.2 p hp
            · rw [hM] at hnone
              exact absurd hnone (by simp)
  | CheckClaim subject piece_id hash =>
    cases hM : alookup subject s.user_claims with
    | none => simp [handle, check_claim, hM] at h
    | some m =>
      cases hc : alookup piece_id m with
      | none => simp [handle, check_claim, hM, hc] at h
      | some c =>
        have hrun : handle s (.CheckClaim subject piece_id hash) =
            (s, .ok (.CheckedClaim subject piece_id
              (decide (hash ∈ c.data.hashed_info)))) := by
          simp [handle, check_claim, hM, hc]
        rw [hrun] at h
        have hs := congrArg Prod.fst h
        dsimp only at hs
        rw [← hs]
        exact hinv

/-- C9 instantiated: after the third party `4` verifies `sampleClaim`, the
resulting store still satisfies the invariant. -/
theorem store_inv_preserved_witness :
    StoreInv { owner_id := 1,
               user_claims :=
                 [(2, [(5, { issuer := 3, issuer_signature := 7, subject := 2,
                             verifiers := [(4, 11)], data := sampleData })])],
               piece_counter := 9 } :=
  store_inv_preserved sampleStore (.VerifyClaim 4 11 2 5)
    { owner_id := 1,
      user_claims :=
        [(2, [(5, { issuer := 3, issuer_signature := 7, subject := 2,
                    verifiers := [(4, 11)], data := sampleData })])],
      piece_counter := 9 }
    (.VerifiedClaim 4 2 5) (by decide) rfl

/-- C7 counterexample: `CheckClaim` can pass all its checks and succeed while
performing zero state changes — on `sampleStore` the check succeeds and the
state after the call equals the state before it, so "all precondition checks
pass and exactly one state change occurs" fails for it. -/
theorem check_claim_no_state_change_counterexample :
    (handle sampleStore (.CheckClaim 2 5 10)).snd = .ok (.CheckedClaim 2 5 true) ∧
    (handle sampleStore (.CheckClaim 2 5 10)).fst = sampleStore :=
  ⟨rfl, rfl⟩

/-- C7 (amended): every operation is atomic — a failed call returns the
state unchanged, and a successful call performs exactly the single
documented transition (`SingleChange`): the targeted cell is written, every
other cell, the owner and (except for issuance) the counter are untouched,
and a successful `CheckClaim` performs no state change at all. -/
theorem operations_atomic (s : IdentityStorage) (a : IdentityAction) :
    (∀ e : IdentityError, (handle s a).snd = .error e → (handle s a).fst = s) ∧
    (∀ ev : IdentityEvent, (handle s a).snd = .ok ev →
      SingleChange s a (handle s a).fst) := by
  cases a with
  | IssueClaim issuer issuer_signature subject data =>
    by_cases hz : subject = 0 ∨ issuer_signature = 0 ∨ issuer = 0
    · refine ⟨fun e _ => ?_, fun ev hev => ?_⟩
      · simp [handle, issue_claim, hz]
      · simp [handle, issue_claim, hz] at hev
    · have hrun := @issue_claim_ok s issuer issuer_signature subject data hz
      refine ⟨fun e he => ?_, fun ev hev => ?_⟩
      · rw [show handle s (.IssueClaim issuer issuer_signature subject data) =
            issue_claim s issuer issuer_signature subject data from rfl, hrun] at he
        simp at he
      · rw [show handle s (.IssueClaim issuer issuer_signature subject data) =
            issue_claim s issuer issuer_signature subject data from rfl, hrun]
        refine ⟨rfl, rfl, ?_⟩
        intro S id
        by_cases hS : S = subject
        · subst hS
          by_cases hid : id = s.piece_counter
          · subst hid
            simp [claimLookup, alookup_aupdate_self, alookup_ainsert_self]
          · simp [claimLookup, alookup_aupdate_self, alookup_ainsert_ne hid, hid,
              bind_alookup_getD]
        · simp [claimLookup, alookup_aupdate_ne hS, hS]
  | ClaimValidationStatus validator subject piece_id status =>
    by_cases hz : validator = 0 ∨ subject = 0
    · refine ⟨fun e _ => ?_, fun ev hev => ?_⟩
      · simp [handle, validation_status, hz]
      · simp [handle, validation_status, hz] at hev
    · cases hM : alookup subject s.user_claims with
      | none =>
        refine ⟨fun e _ => ?_, fun ev hev => ?_⟩
        · simp [handle, validation_status, hz, hM]
        · simp [handle, validation_status, hz, hM] at hev
      | some m =>
        cases hc : alookup piece_id m with
        | none =>
          refine ⟨fun e _ => ?_, fun ev hev => ?_⟩
          · simp [handle, validation_status, hz, hM, hc]
          · simp [handle, validation_status, hz, hM, hc] at hev
        | some c =>
          by_cases hcond : c.subject ≠ validator ∧ c.issuer ≠ validator
          · refine ⟨fun e _ => ?_, fun ev hev => ?_⟩
            · simp [handle, validation_status, hz, hM, hc, hcond]
            · simp [handle, validation_status, hz, hM, hc, hcond] at hev
          · have hrun : handle s (.ClaimValidationStatus validator subject piece_id status) =
                ({ s with
                    user_claims :=
                      aupdate subject []
                        (amodify piece_id
                          (fun claim =>
                            { claim with data := { claim.data with valid := status } }))
                        s.user_claims },
                 .ok (.ClaimValidationChanged validator subject piece_id status)) := by
              simp [handle, validation_status, hz, hM, hc, hcond]
            refine ⟨fun e he => ?_, fun ev hev => ?_⟩
            · rw [hrun] at he
              simp at he
            · rw [hrun]
              refine ⟨rfl, rfl, c, by simp [claimLookup, hM, hc], ?_⟩
              intro S id
              by_cases hS : S = subject
              · subst hS
                by_cases hid : id = piece_id
                · subst hid
                  simp [claimLookup, alookup_aupdate_self, hM, alookup_amodify_self, hc]
                · simp [claimLookup, alookup_aupdate_self, hM,
                    alookup_amodify_ne hid, hid]
              · simp [claimLookup, alookup_aupdate_ne hS, hS]
  | VerifyClaim verifier verifier_signature subject piece_id =>
    by_cases hz : verifier = 0 ∨ subject = 0 ∨ verifier_signature = 0
    · refine ⟨fun e _ => ?_, fun ev hev => ?_⟩
      · simp [handle, verify_claim, hz]
      · simp [handle, verify_claim, hz] at hev
    · cases hM : alookup subject s.user_claims with
      | none =>
        refine ⟨fun e _ => ?_, fun ev hev => ?_⟩
        · simp [handle, verify_claim, hz, hM]
        · simp [handle, verify_claim, hz, hM] at hev
      | some m =>
        cases hc : alookup piece_id m with
        | none =>
          refine ⟨fun e _ => ?_, fun ev hev => ?_⟩
          · simp [handle, verify_claim, hz, hM, hc]
          · simp [handle, verify_claim, hz, hM, hc] at hev
        | some c =>
          by_cases hcond : c.issuer = verifier ∨ c.subject = verifier
          · refine ⟨fun e _ => ?_, fun ev hev => ?_⟩
            · simp [handle, verify_claim, hz, hM, hc, hcond]
            · simp [handle, verify_claim, hz, hM, hc, hcond] at hev
          · have hrun : handle s (.VerifyClaim verifier verifier_signature subject piece_id) =
                ({ s with
                    user_claims :=
                      aupdate subject []
                        (amodify piece_id
                          (fun claim =>
                            { claim with
                                verifiers :=
                                  ainsert verifier verifier_signature claim.verifiers }))
                        s.user_claims },
                 .ok (.VerifiedClaim verifier subject piece_id)) := by
              simp [handle, verify_claim, hz, hM, hc, hcond]
            refine ⟨fun e he => ?_, fun ev hev => ?_⟩
            · rw [hrun] at he
              simp at he
            · rw [hrun]
              refine ⟨rfl, rfl, c, by simp [claimLookup, hM, hc], ?_⟩
              intro S id
              by_cases hS : S = subject
              · subst hS
                by_cases hid : id = piece_id
                · subst hid
                  simp [claimLookup, alookup_aupdate_self, hM, alookup_amodify_self, hc]
                · simp [claimLookup, alookup_aupdate_self, hM,
                    alookup_amodify_ne hid, hid]
              · simp [claimLookup, alookup_aupdate_ne hS, hS]
  | CheckClaim subject piece_id hash =>
    cases hM : alookup subject s.user_claims with
    | none =>
      refine ⟨fun e _ => ?_, fun ev hev => ?_⟩
      · simp [handle, check_claim, hM]
      · simp [handle, check_claim, hM] at hev
    | some m =>
      cases hc : alookup piece_id m with
      | none =>
        refine ⟨fun e _ => ?_, fun ev hev => ?_⟩
        · simp [handle, check_claim, hM, hc]
        · simp [handle, check_claim, hM, hc] at hev
      | some c =>
        refine ⟨fun e he => ?_, fun ev hev => ?_⟩
        · simp [handle, check_claim, hM, hc] at he
        · simp [SingleChange, handle, check_claim, hM, hc]

/-- C7 (amended) instantiated: a rejected self-verification leaves
`sampleStore` unchanged, and a successful `CheckClaim` satisfies the
(trivial) single-change contract. -/
theorem operations_atomic_witness :
    (handle sampleStore (.VerifyClaim 3 11 2 5)).fst = sampleStore ∧
    SingleChange sampleStore (.CheckClaim 2 5 10)
      (handle sampleStore (.CheckClaim 2 5 10)).fst :=
  ⟨(operations_atomic sampleStore (.VerifyClaim 3 11 2 5)).1 .Unauthorized rfl,
   (operations_atomic sampleStore (.CheckClaim 2 5 10)).2 (.CheckedClaim 2 5 true) rfl⟩

end Identity
